import Mathlib

/-!
Verification of the upload orchestration state machine of `object-uploader.mjs`
(`class ObjectUploader extends Transform`).

The JavaScript class is a Node `Transform` stream that processes input chunks
strictly one at a time (`_transform`) and finalizes on end of input (`_flush`).
We embed it shallowly:

* The per-uploader mutable fields (`emptyStream`, `partNumber`, `oldParts`,
  `etags`, `id`) become the record `UploaderState`.
* The collaborator client (`makeRequest`, `findUploadId`,
  `initiateNewMultipartUpload`, `listParts`, `completeMultipartUpload`) and the
  uploader configuration (`partSize`, `metaData`, `enableSHA256`) become the
  record `Env` of pure response functions; fallible calls return `Except`.
  `makeRequest` is split by the query it is given: `makeRequestPut` is the
  empty-query whole-object PUT, `makeRequestPart` the PUT with
  `partNumber`/`uploadId` query.  MD5 (`Crypto.createHash('md5')`) is the
  abstract function `Env.md5` on byte lists; the `hex`/`base64` encodings of
  the digest are computed concretely.
* Every externally observable action (hash computation, each network request,
  each completion-callback delivery) is recorded as an event `Ev`, so a run
  produces a trace.
* The one-shot `'ready'` gate (buffer the chunk, resolve the session, then
  re-invoke `_transform` on the same chunk) is modelled by `transform` calling
  `transformCore` on the buffered chunk once the session id is assigned;
  `transformCore` is the full `_transform` body as seen by a re-entry, where
  `this.id` is already set, so the setup branch cannot be taken again.
* Erroring a stream callback (or emitting `'error'`) halts chunk intake and
  delivers the error to the constructor-supplied completion callback exactly
  once; the driver `run` models this by stopping at the first step error and
  appending a single `Ev.cbErr`.
-/

/-- A `{part, etag}` entry as returned by `listParts` (an already uploaded
part of a previous incomplete multipart upload). -/
structure PartItem where
  part : Nat
  etag : String
deriving DecidableEq, Repr

/-- A `{part, etag}` entry pushed onto `this.etags`.  The etag is `none` when
the part-upload response carried no etag header (the source then pushes
`undefined`). -/
structure PartEtag where
  part : Nat
  etag : Option String
deriving DecidableEq, Repr

/-- The relevant headers of a `makeRequest` response: the raw `etag` header
and the version id extracted by `getVersionId(response.headers)`. -/
structure Response where
  etag : Option String
  versionId : Option String
deriving DecidableEq, Repr

/-- Headers attached to an outgoing PUT: `Content-Length`, optional
`Content-MD5`, and the user metadata merged in by `Object.assign` (empty for
part uploads, which never carry `this.metaData`). -/
structure Hdr where
  contentLength : Nat
  contentMD5 : Option String
  meta : List (String × String)
deriving DecidableEq, Repr

/-- Observable events of a run. -/
inductive Ev where
  /-- `Crypto.createHash('md5').update(chunk).digest()` was evaluated. -/
  | digest (chunk : List Nat)
  /-- Whole-object PUT (`makeRequest` with empty query). -/
  | putWhole (h : Hdr) (body : List Nat)
  /-- `client.findUploadId(...)` was called. -/
  | findUpl
  /-- `client.initiateNewMultipartUpload(...)` was called. -/
  | initiateNew
  /-- `client.listParts(..., uploadId, ...)` was called. -/
  | listPartsCall (uploadId : String)
  /-- Per-part PUT (`makeRequest` with `partNumber`/`uploadId` query). -/
  | putPart (pn : Nat) (uploadId : String) (h : Hdr) (body : List Nat)
  /-- `client.completeMultipartUpload(..., uploadId, etags, ...)` was called. -/
  | complete (uploadId : String) (parts : List PartEtag)
  /-- Completion callback fired with `{etag, versionId}` (single-shot paths). -/
  | cbResult (etag : String) (versionId : Option String)
  /-- Completion callback fired with the bare composite etag (multipart path). -/
  | cbEtag (etag : String)
  /-- Completion callback fired with an error. -/
  | cbErr (e : String)
deriving DecidableEq, Repr

/-- The mutable fields of an `ObjectUploader` instance, as set up by the
constructor and mutated by `_transform`/`_flush`. -/
structure UploaderState where
  emptyStream : Bool
  partNumber : Nat
  oldParts : Option (List PartItem)
  etags : List PartEtag
  id : Option String
deriving DecidableEq, Repr

/-- Constructor state: `emptyStream = true`, `partNumber = 1`,
`oldParts = null`, `etags = []`, `id = null`. -/
def initState : UploaderState :=
  { emptyStream := true, partNumber := 1, oldParts := none, etags := [], id := none }

/-- Result of one `_transform`/driver step: the new state, the events emitted,
and the error (if any) that the step surfaced. -/
structure StepRes where
  st : UploaderState
  evs : List Ev
  err : Option String
deriving Repr

/-- The environment: the collaborator client plus the uploader configuration,
with each network call modelled as a pure response function. -/
structure Env where
  enableSHA256 : Bool
  partSize : Nat
  metaData : List (String × String)
  md5 : List Nat → List Nat
  findUploadId : Except String (Option String)
  initiateNewMultipartUpload : Except String String
  listParts : String → Except String (Option (List PartItem))
  makeRequestPut : Hdr → List Nat → Except String Response
  makeRequestPart : Nat → String → Hdr → List Nat → Except String Response
  completeMultipartUpload : String → List PartEtag → Except String String
  sanitizeETag : Option String → String

/-- Lowercase hex digit, as produced by `Buffer.toString('hex')`. -/
def hexChar (n : Nat) : Char :=
  if n < 10 then Char.ofNat (48 + n) else Char.ofNat (87 + n)

/-- Two lowercase hex digits of one byte. -/
def byteHex (b : Nat) : List Char :=
  [hexChar (b / 16 % 16), hexChar (b % 16)]

/-- `Buffer.toString('hex')`: lowercase hex of a byte list. -/
def hexOf (bs : List Nat) : String :=
  ⟨(bs.map byteHex).flatten⟩

/-- Standard base64 alphabet character. -/
def b64Char (n : Nat) : Char :=
  if n < 26 then Char.ofNat (65 + n)
  else if n < 52 then Char.ofNat (97 + (n - 26))
  else if n < 62 then Char.ofNat (48 + (n - 52))
  else if n = 62 then '+' else '/'

/-- Encode a final group of one to three bytes, with `=` padding. -/
def b64Group : List Nat → List Char
  | [a, b, c] => [b64Char (a / 4), b64Char (a % 4 * 16 + b / 16),
      b64Char (b % 16 * 4 + c / 64), b64Char (c % 64)]
  | [a, b] => [b64Char (a / 4), b64Char (a % 4 * 16 + b / 16),
      b64Char (b % 16 * 4), '=']
  | [a] => [b64Char (a / 4), b64Char (a % 4 * 16), '=', '=']
  | _ => []

/-- Byte list split into groups of three and base64-encoded. -/
def b64Chunks : List Nat → List Char
  | a :: b :: c :: rest => b64Group [a, b, c] ++ b64Chunks rest
  | rest => b64Group rest

/-- `Buffer.toString('base64')` of a byte list. -/
def b64Of (bs : List Nat) : String :=
  ⟨b64Chunks bs⟩

/-- `md5digest` right after the header block of `_transform`: the digest is
computed there only when `!this.client.enableSHA256`. -/
def cachedDigest (env : Env) (chunk : List Nat) : Option (List Nat) :=
  if env.enableSHA256 = false then some (env.md5 chunk) else none

/-- The hash-computation events of the header block of `_transform`. -/
def digestEvs (env : Env) (chunk : List Nat) : List Ev :=
  if env.enableSHA256 = false then [Ev.digest chunk] else []

/-- The `headers` object built at the top of `_transform`:
`Content-Length` always, `Content-MD5` (base64 of the md5 digest) only when
`!this.client.enableSHA256`, and no user metadata. -/
def partHdr (env : Env) (chunk : List Nat) : Hdr :=
  { contentLength := chunk.length
    contentMD5 := if env.enableSHA256 = false then some (b64Of (env.md5 chunk)) else none
    meta := [] }

/-- The single-shot headers: `Object.assign({}, this.metaData, headers)`. -/
def wholeHdr (env : Env) (chunk : List Nat) : Hdr :=
  { partHdr env chunk with meta := env.metaData }

/-- `etag.replace(/^"/, '')`: drop one leading double quote if present. -/
def stripLeadingQuote (s : String) : String :=
  match s.data with
  | '"' :: rest => ⟨rest⟩
  | _ => s

/-- `etag.replace(/"$/, '')`: drop one trailing double quote if present. -/
def stripTrailingQuote (s : String) : String :=
  if s.data.getLast? = some '"' then ⟨s.data.dropLast⟩ else s

/-- Normalization of the part-upload response etag,
`if (etag) { etag = etag.replace(/^"/, '').replace(/"$/, '') }`:
a missing (`undefined`) or empty etag is left untouched, otherwise one leading
and one trailing quote are stripped, each independently. -/
def normEtag : Option String → Option String
  | none => none
  | some s => if s = "" then some s else some (stripTrailingQuote (stripLeadingQuote s))

/-- Modelled from the spec (§4.1 resume step wording), for comparison with the
code's `normEtag`: "extract and normalize the returned identifier (symmetric
quoting stripped)" — remove a matched leading-and-trailing double-quote pair
enclosing the identifier, never a quote from one side only. -/
def stripSymmetricQuotes (s : String) : String :=
  if 2 ≤ s.data.length ∧ s.data.head? = some '"' ∧ s.data.getLast? = some '"' then
    ⟨(s.data.drop 1).dropLast⟩
  else s

/-- The `reduce` of `listParts` results into `oldParts`:
`if (!prev[item.part]) prev[item.part] = item` — first occurrence of each part
number wins.  The object is represented as the list of its entries in
insertion order. -/
def buildOldParts (items : List PartItem) : List PartItem :=
  items.foldl
    (fun prev item =>
      if (prev.find? fun p => p.part == item.part).isSome then prev else prev ++ [item])
    []

/-- `oldParts[partNumber]`: lookup by part number. -/
def findPart (reg : List PartItem) (pn : Nat) : Option PartItem :=
  reg.find? fun p => p.part == pn

/-- The Part Registry built from a `listParts` response, including the
`if (!etags) etags = []` defaulting for an absent listing. -/
def registryOfListing (lp : Option (List PartItem)) : List PartItem :=
  buildOldParts (lp.getD [])

/-- Prepend already-emitted events to a step result. -/
def prependEvs (evs : List Ev) (r : StepRes) : StepRes :=
  { r with evs := evs ++ r.evs }

/-- The per-part upload at the bottom of `_transform`: one `makeRequest` with
`partNumber`/`uploadId` query; on success the normalized response etag is
pushed onto `this.etags`. -/
def uploadPartStep (env : Env) (st : UploaderState) (pn : Nat) (uid : String)
    (chunk : List Nat) : StepRes :=
  match env.makeRequestPart pn uid (partHdr env chunk) chunk with
  | .error e => ⟨st, [Ev.putPart pn uid (partHdr env chunk) chunk], some e⟩
  | .ok r =>
      ⟨{ st with etags := st.etags ++ [⟨pn, normEtag r.etag⟩] },
        [Ev.putPart pn uid (partHdr env chunk) chunk], none⟩

/-- The multipart-active tail of `_transform` (from `let partNumber =
this.partNumber++`): assign the part number, run the resume check against
`oldParts` (computing the md5 digest lazily if the header block did not), and
either record the old etag without a network request or upload the part.
`md5digest` is the cached digest from the header block. -/
def activeStep (env : Env) (st : UploaderState) (chunk : List Nat) (uid : String)
    (md5digest : Option (List Nat)) : StepRes :=
  let pn := st.partNumber
  let st1 := { st with partNumber := pn + 1 }
  match st.oldParts with
  | none => uploadPartStep env st1 pn uid chunk
  | some reg =>
      let d := match md5digest with
        | some d => d
        | none => env.md5 chunk
      let evs1 : List Ev := match md5digest with
        | some _ => []
        | none => [Ev.digest chunk]
      match findPart reg pn with
      | some old =>
          if hexOf d = old.etag then
            ⟨{ st1 with etags := st1.etags ++ [⟨pn, some old.etag⟩] }, evs1, none⟩
          else prependEvs evs1 (uploadPartStep env st1 pn uid chunk)
      | none => prependEvs evs1 (uploadPartStep env st1 pn uid chunk)

/-- One `_transform` invocation entered with the session gate already passed:
this is the shape of the `'ready'` re-invocation on a buffered chunk (it
re-runs the whole body, including the header/digest block and the single-shot
test, but `this.id` has been set, so the session-setup branch is not taken —
the `none` case below is unreachable on re-entry and, faithfully to a stalled
stream, reports no progress). -/
def transformCore (env : Env) (st0 : UploaderState) (chunk : List Nat) : StepRes :=
  if st0.partNumber = 1 ∧ chunk.length < env.partSize then
    -- single-shot: PUT the chunk in one request with user metadata headers
    match env.makeRequestPut (wholeHdr env chunk) chunk with
    | .error e =>
        ⟨{ st0 with emptyStream := false },
          digestEvs env chunk ++ [Ev.putWhole (wholeHdr env chunk) chunk], some e⟩
    | .ok r =>
        ⟨{ st0 with emptyStream := false },
          digestEvs env chunk ++ [Ev.putWhole (wholeHdr env chunk) chunk,
            Ev.cbResult (env.sanitizeETag r.etag) r.versionId], none⟩
  else
    match st0.id with
    | some uid =>
        prependEvs (digestEvs env chunk)
          (activeStep env { st0 with emptyStream := false } chunk uid
            (cachedDigest env chunk))
    | none => ⟨{ st0 with emptyStream := false }, digestEvs env chunk, some "stalled"⟩

/-- `_transform(chunk, encoding, callback)`: the header/digest block, the
single-shot test, the one-time session-setup gate (with the buffered chunk
re-processed from the top via `transformCore` once the session is ready), and
the multipart-active tail. -/
def transform (env : Env) (st0 : UploaderState) (chunk : List Nat) : StepRes :=
  if st0.partNumber = 1 ∧ chunk.length < env.partSize then
    -- single-shot: PUT the chunk in one request with user metadata headers
    match env.makeRequestPut (wholeHdr env chunk) chunk with
    | .error e =>
        ⟨{ st0 with emptyStream := false },
          digestEvs env chunk ++ [Ev.putWhole (wholeHdr env chunk) chunk], some e⟩
    | .ok r =>
        ⟨{ st0 with emptyStream := false },
          digestEvs env chunk ++ [Ev.putWhole (wholeHdr env chunk) chunk,
            Ev.cbResult (env.sanitizeETag r.etag) r.versionId], none⟩
  else
    match st0.id with
    | some uid =>
        prependEvs (digestEvs env chunk)
          (activeStep env { st0 with emptyStream := false } chunk uid
            (cachedDigest env chunk))
    | none =>
      match env.findUploadId with
      | .error e =>
          ⟨{ st0 with emptyStream := false },
            digestEvs env chunk ++ [Ev.findUpl], some e⟩
      | .ok none =>
        match env.initiateNewMultipartUpload with
        | .error e =>
            ⟨{ st0 with emptyStream := false },
              digestEvs env chunk ++ [Ev.findUpl, Ev.initiateNew], some e⟩
        | .ok nid =>
            prependEvs (digestEvs env chunk ++ [Ev.findUpl, Ev.initiateNew])
              (transformCore env
                { st0 with emptyStream := false, id := some nid } chunk)
      | .ok (some uid) =>
        match env.listParts uid with
        | .error e =>
            ⟨{ st0 with emptyStream := false, id := some uid },
              digestEvs env chunk ++ [Ev.findUpl, Ev.listPartsCall uid], some e⟩
        | .ok lp =>
            prependEvs (digestEvs env chunk ++ [Ev.findUpl, Ev.listPartsCall uid])
              (transformCore env
                { st0 with
                  emptyStream := false
                  id := some uid
                  oldParts := some (registryOfListing lp) } chunk)

/-- Feed the chunks in order, stopping at the first step error
(an erroring stream callback halts chunk intake). -/
def runChunks (env : Env) : UploaderState → List (List Nat) → StepRes
  | st, [] => ⟨st, [], none⟩
  | st, c :: cs =>
    let r := transform env st c
    match r.err with
    | some e => ⟨r.st, r.evs, some e⟩
    | none =>
      let r2 := runChunks env r.st cs
      ⟨r2.st, r.evs ++ r2.evs, r2.err⟩

/-- `_flush(callback)`: empty-stream PUT with zero-length body, or nothing if
the object went out in a single packet (`id === null`), or
`completeMultipartUpload` with the accumulated etags. -/
def flushStep (env : Env) (st : UploaderState) : List Ev :=
  if st.emptyStream then
    let h : Hdr := { contentLength := 0, contentMD5 := none, meta := env.metaData }
    match env.makeRequestPut h [] with
    | .error e => [Ev.putWhole h [], Ev.cbErr e]
    | .ok r => [Ev.putWhole h [], Ev.cbResult (env.sanitizeETag r.etag) r.versionId]
  else
    match st.id with
    | none => []
    | some uid =>
      match env.completeMultipartUpload uid st.etags with
      | .error e => [Ev.complete uid st.etags, Ev.cbErr e]
      | .ok etag => [Ev.complete uid st.etags, Ev.cbEtag etag]

/-- A full run: the chunks through `_transform`, then `_flush`; the first
fatal error is delivered once through the completion callback and ends the
run. -/
def run (env : Env) (chunks : List (List Nat)) : List Ev :=
  let r := runChunks env initState chunks
  match r.err with
  | some e => r.evs ++ [Ev.cbErr e]
  | none => r.evs ++ flushStep env r.st

/-- Number of events of a given kind in a trace. -/
def countEv (p : Ev → Bool) (t : List Ev) : Nat :=
  (t.filter p).length

/-- Whole-object PUT events. -/
def isPutWhole : Ev → Bool
  | .putWhole _ _ => true
  | _ => false

/-- Per-part PUT events. -/
def isPutPart : Ev → Bool
  | .putPart _ _ _ _ => true
  | _ => false

/-- Per-part PUT events for a fixed part number. -/
def isPutPartN (pn : Nat) : Ev → Bool
  | .putPart k _ _ _ => k == pn
  | _ => false

/-- Digest computations. -/
def isDigest : Ev → Bool
  | .digest _ => true
  | _ => false

/-- `findUploadId` calls. -/
def isFindUpl : Ev → Bool
  | .findUpl => true
  | _ => false

/-- Session establishment: either a `initiateNewMultipartUpload` call (new
session) or a `listParts` call (adoption of an existing session). -/
def isSetup : Ev → Bool
  | .initiateNew => true
  | .listPartsCall _ => true
  | _ => false

/-- `completeMultipartUpload` calls. -/
def isComplete : Ev → Bool
  | .complete _ _ => true
  | _ => false

/-- Error deliveries on the completion callback. -/
def isCbErr : Ev → Bool
  | .cbErr _ => true
  | _ => false

/-- Any multipart collaborator operation. -/
def isMulti : Ev → Bool
  | .findUpl => true
  | .initiateNew => true
  | .listPartsCall _ => true
  | .putPart _ _ _ _ => true
  | .complete _ _ => true
  | _ => false

/-- Valid chunkings as produced by the upstream `BlockStream2` chunker: every
chunk except the last has at least the part size (the source cuts blocks of
exactly `partSize`; only the final block may be shorter). -/
def validChunks (ps : Nat) : List (List Nat) → Bool
  | [] => true
  | [_] => true
  | c :: rest => decide (ps ≤ c.length) && validChunks ps rest

/-! ### Counting and membership helpers -/

theorem countEv_nil (p : Ev → Bool) : countEv p [] = 0 := rfl

theorem countEv_cons (p : Ev → Bool) (e : Ev) (t : List Ev) :
    countEv p (e :: t) = (if p e then 1 else 0) + countEv p t := by
  by_cases h : p e <;> simp [countEv, List.filter_cons, h, Nat.add_comm]

theorem countEv_append (p : Ev → Bool) (a b : List Ev) :
    countEv p (a ++ b) = countEv p a + countEv p b := by
  simp [countEv, List.filter_append]

theorem countEv_pos_of_mem {p : Ev → Bool} {t : List Ev} {ev : Ev}
    (hm : ev ∈ t) (hp : p ev = true) : 1 ≤ countEv p t := by
  have : ev ∈ t.filter p := List.mem_filter.mpr ⟨hm, hp⟩
  have := List.length_pos_of_mem this
  simpa [countEv] using this

theorem not_mem_of_countEv_zero {p : Ev → Bool} {t : List Ev} {ev : Ev}
    (h : countEv p t = 0) (hp : p ev = true) : ev ∉ t := by
  intro hm
  have := countEv_pos_of_mem hm hp
  omega

/-! ### Part Registry (claim C6) -/

theorem findPart_foldl (items : List PartItem) (acc : List PartItem) (pn : Nat) :
    findPart
      (items.foldl
        (fun prev item =>
          if (prev.find? fun p => p.part == item.part).isSome then prev else prev ++ [item])
        acc) pn =
      (findPart acc pn).or (items.find? fun p => p.part == pn) := by
  induction items generalizing acc with
  | nil => simp [List.foldl]
  | cons item items ih =>
      simp only [List.foldl]
      rw [ih]
      by_cases hdup : (acc.find? fun p => p.part == item.part).isSome
      · simp only [if_pos hdup]
        by_cases hpn : item.part = pn
        · subst hpn
          rcases Option.isSome_iff_exists.mp hdup with ⟨x, hx⟩
          simp [findPart, hx, List.find?_cons]
        · have hne : (item.part == pn) = false := by simp [hpn]
          simp [List.find?_cons, hne]
      · simp only [if_neg hdup]
        have happ : findPart (acc ++ [item]) pn =
            (findPart acc pn).or (if item.part = pn then some item else none) := by
          by_cases hpn : item.part = pn <;>
            simp [findPart, List.find?_append, List.find?_cons, hpn]
        rw [happ]
        by_cases hpn : item.part = pn
        · subst hpn
          have hacc : findPart acc item.part = none := by
            cases h : acc.find? fun p => p.part == item.part
            · simpa [findPart] using h
            · exact absurd (by simp [h]) hdup
          simp [hacc, List.find?_cons]
        · have hne : (item.part == pn) = false := by simp [hpn]
          simp [List.find?_cons, hne, Option.or_assoc, hpn]

/-- C6: building the Part Registry from a prior part listing maps each
partNumber to its first-occurring record when the listing has duplicate part
numbers, and an absent or empty listing yields an empty registry. -/
theorem partRegistry_first_wins :
    (∀ (items : List PartItem) (pn : Nat),
        findPart (registryOfListing (some items)) pn = items.find? fun p => p.part == pn)
    ∧ registryOfListing none = [] ∧ registryOfListing (some []) = [] := by
  refine ⟨fun items pn => ?_, rfl, rfl⟩
  have := findPart_foldl items [] pn
  simpa [registryOfListing, buildOldParts, findPart] using this

/-! ### Empty input (claim C7) -/

/-- C7: with zero chunks observed, `_flush` issues exactly one whole-object
PUT with a zero-length body carrying the object metadata, performs no
multipart operation, and synthesizes the terminal result from that response
as in the single-shot path. -/
theorem emptyInput_single_put (env : Env) :
    countEv isPutWhole (run env []) = 1 ∧
    countEv isMulti (run env []) = 0 ∧
    Ev.putWhole { contentLength := 0, contentMD5 := none, meta := env.metaData } [] ∈
      run env [] ∧
    (∀ r, env.makeRequestPut
        { contentLength := 0, contentMD5 := none, meta := env.metaData } [] = .ok r →
      Ev.cbResult (env.sanitizeETag r.etag) r.versionId ∈ run env []) := by
  have hrun : run env [] = flushStep env initState := by
    simp [run, runChunks]
  cases hreq : env.makeRequestPut
      { contentLength := 0, contentMD5 := none, meta := env.metaData } [] with
  | error e =>
      refine ⟨?_, ?_, ?_, fun r hr => ?_⟩
      · simp [hrun, flushStep, initState, hreq, countEv, isPutWhole]
      · simp [hrun, flushStep, initState, hreq, countEv, isMulti]
      · simp [hrun, flushStep, initState, hreq]
      · exact absurd hr (by simp)
  | ok r =>
      refine ⟨?_, ?_, ?_, fun r' hr' => ?_⟩
      · simp [hrun, flushStep, initState, hreq, countEv, isPutWhole]
      · simp [hrun, flushStep, initState, hreq, countEv, isMulti]
      · simp [hrun, flushStep, initState, hreq]
      · cases hr'
        simp [hrun, flushStep, initState, hreq]

/-! ### Shape of one `_transform` invocation -/

theorem uploadPartStep_evs (env : Env) (st : UploaderState) (pn : Nat) (uid : String)
    (c : List Nat) :
    (uploadPartStep env st pn uid c).evs = [Ev.putPart pn uid (partHdr env c) c] := by
  unfold uploadPartStep
  cases env.makeRequestPart pn uid (partHdr env c) c <;> rfl

theorem uploadPartStep_id (env : Env) (st : UploaderState) (pn : Nat) (uid : String)
    (c : List Nat) :
    (uploadPartStep env st pn uid c).st.id = st.id := by
  unfold uploadPartStep
  cases env.makeRequestPart pn uid (partHdr env c) c <;> rfl

theorem transform_singleShot (env : Env) (st : UploaderState) (c : List Nat)
    (h : st.partNumber = 1 ∧ c.length < env.partSize) :
    transform env st c =
      match env.makeRequestPut (wholeHdr env c) c with
      | .error e =>
          ⟨{ st with emptyStream := false },
            digestEvs env c ++ [Ev.putWhole (wholeHdr env c) c], some e⟩
      | .ok r =>
          ⟨{ st with emptyStream := false },
            digestEvs env c ++ [Ev.putWhole (wholeHdr env c) c,
              Ev.cbResult (env.sanitizeETag r.etag) r.versionId], none⟩ := by
  unfold transform
  rw [if_pos h]

theorem transform_id_some (env : Env) (st : UploaderState) (c : List Nat) (uid : String)
    (hid : st.id = some uid)
    (hact : ¬(st.partNumber = 1 ∧ c.length < env.partSize)) :
    transform env st c =
      prependEvs (digestEvs env c)
        (activeStep env { st with emptyStream := false } c uid (cachedDigest env c)) := by
  unfold transform
  rw [if_neg hact, hid]

theorem countEv_singleton (p : Ev → Bool) (e : Ev) :
    countEv p [e] = if p e then 1 else 0 := by
  by_cases h : p e <;> simp [countEv, List.filter_cons, h]

theorem countEv_digestEvs_zero {p : Ev → Bool} (env : Env) (c : List Nat)
    (h : p (Ev.digest c) = false) : countEv p (digestEvs env c) = 0 := by
  unfold digestEvs
  split <;> simp [countEv, List.filter_cons, h]

theorem countEv_activeStep_le {p : Ev → Bool} (env : Env) (st : UploaderState)
    (c : List Nat) (uid : String) (d : Option (List Nat))
    (h1 : p (Ev.digest c) = false) :
    countEv p (activeStep env st c uid d).evs ≤
      if p (Ev.putPart st.partNumber uid (partHdr env c) c) then 1 else 0 := by
  unfold activeStep
  cases hop : st.oldParts with
  | none => simp [uploadPartStep_evs, countEv_singleton]
  | some reg =>
      cases hfp : findPart reg st.partNumber with
      | some old =>
          cases d with
          | some d0 =>
              by_cases hx : hexOf d0 = old.etag <;>
                simp [hfp, hx, prependEvs, countEv_append, uploadPartStep_evs,
                  countEv_singleton, countEv_nil]
          | none =>
              by_cases hx : hexOf (env.md5 c) = old.etag <;>
                simp [hfp, hx, prependEvs, countEv_append, uploadPartStep_evs,
                  countEv_singleton, countEv_cons, countEv_nil, h1]
      | none =>
          cases d with
          | some d0 =>
              simp [hfp, prependEvs, countEv_append, uploadPartStep_evs,
                countEv_singleton, countEv_nil]
          | none =>
              simp [hfp, prependEvs, countEv_append, uploadPartStep_evs,
                countEv_singleton, countEv_cons, countEv_nil, h1]

theorem countEv_transformCore_zero {p : Ev → Bool} (env : Env) (st : UploaderState)
    (c : List Nat)
    (h1 : p (Ev.digest c) = false) (h2 : ∀ h b, p (Ev.putWhole h b) = false)
    (h6 : ∀ e v, p (Ev.cbResult e v) = false)
    (h7 : ∀ pn u h b, p (Ev.putPart pn u h b) = false) :
    countEv p (transformCore env st c).evs = 0 := by
  unfold transformCore
  split
  · cases env.makeRequestPut (wholeHdr env c) c <;>
      simp [countEv_append, countEv_cons, countEv_nil, countEv_digestEvs_zero env c h1, h2, h6]
  · cases hid : st.id with
    | some uid =>
        have hact := countEv_activeStep_le env { st with emptyStream := false } c uid
          (cachedDigest env c) h1
        rw [hid] at hact
        simp [h7] at hact
        simp [prependEvs, countEv_append, countEv_digestEvs_zero env c h1, hact]
    | none => simp [countEv_digestEvs_zero env c h1]

theorem countEv_transform_zero {p : Ev → Bool} (env : Env) (st : UploaderState)
    (c : List Nat)
    (h1 : p (Ev.digest c) = false) (h2 : ∀ h b, p (Ev.putWhole h b) = false)
    (h3 : p Ev.findUpl = false) (h4 : p Ev.initiateNew = false)
    (h5 : ∀ u, p (Ev.listPartsCall u) = false)
    (h6 : ∀ e v, p (Ev.cbResult e v) = false)
    (h7 : ∀ pn u h b, p (Ev.putPart pn u h b) = false) :
    countEv p (transform env st c).evs = 0 := by
  unfold transform
  split
  · cases env.makeRequestPut (wholeHdr env c) c <;>
      simp [countEv_append, countEv_cons, countEv_nil, countEv_digestEvs_zero env c h1, h2, h6]
  · cases hid : st.id with
    | some uid =>
        have hact := countEv_activeStep_le env { st with emptyStream := false } c uid
          (cachedDigest env c) h1
        rw [hid] at hact
        simp [h7] at hact
        simp [prependEvs, countEv_append, countEv_digestEvs_zero env c h1, hact]
    | none =>
        cases hf : env.findUploadId with
        | error e =>
            simp [hf, countEv_append, countEv_cons, countEv_nil,
              countEv_digestEvs_zero env c h1, h3]
        | ok o =>
          cases o with
          | none =>
              cases hn : env.initiateNewMultipartUpload with
              | error e =>
                  simp [hf, hn, countEv_append, countEv_cons, countEv_nil,
                    countEv_digestEvs_zero env c h1, h3, h4]
              | ok nid =>
                  simp [hf, hn, prependEvs, countEv_append, countEv_cons, countEv_nil,
                    countEv_digestEvs_zero env c h1, h3, h4,
                    countEv_transformCore_zero env _ c h1 h2 h6 h7]
          | some uid =>
              cases hl : env.listParts uid with
              | error e =>
                  simp [hf, hl, countEv_append, countEv_cons, countEv_nil,
                    countEv_digestEvs_zero env c h1, h3, h5]
              | ok lp =>
                  simp [hf, hl, prependEvs, countEv_append, countEv_cons, countEv_nil,
                    countEv_digestEvs_zero env c h1, h3, h5,
                    countEv_transformCore_zero env _ c h1 h2 h6 h7]

theorem countEv_transformCore_le_one {p : Ev → Bool} (env : Env) (st : UploaderState)
    (c : List Nat)
    (h1 : p (Ev.digest c) = false) (h2 : ∀ h b, p (Ev.putWhole h b) = false)
    (h6 : ∀ e v, p (Ev.cbResult e v) = false) :
    countEv p (transformCore env st c).evs ≤ 1 := by
  unfold transformCore
  split
  · cases env.makeRequestPut (wholeHdr env c) c <;>
      simp [countEv_append, countEv_cons, countEv_nil, countEv_digestEvs_zero env c h1, h2, h6]
  · cases hid : st.id with
    | some uid =>
        have hact := countEv_activeStep_le env { st with emptyStream := false } c uid
          (cachedDigest env c) h1
        rw [hid] at hact
        have hle := le_trans hact (by split <;> omega :
          (if p (Ev.putPart ({ st with emptyStream := false } : UploaderState).partNumber uid
              (partHdr env c) c) then 1 else 0) ≤ 1)
        simp [prependEvs, countEv_append, countEv_digestEvs_zero env c h1]
        exact hle
    | none => simp [countEv_digestEvs_zero env c h1]

theorem countEv_transform_le_one {p : Ev → Bool} (env : Env) (st : UploaderState)
    (c : List Nat)
    (h1 : p (Ev.digest c) = false) (h2 : ∀ h b, p (Ev.putWhole h b) = false)
    (h3 : p Ev.findUpl = false) (h4 : p Ev.initiateNew = false)
    (h5 : ∀ u, p (Ev.listPartsCall u) = false)
    (h6 : ∀ e v, p (Ev.cbResult e v) = false) :
    countEv p (transform env st c).evs ≤ 1 := by
  unfold transform
  split
  · cases env.makeRequestPut (wholeHdr env c) c <;>
      simp [countEv_append, countEv_cons, countEv_nil, countEv_digestEvs_zero env c h1, h2, h6]
  · cases hid : st.id with
    | some uid =>
        have hact := countEv_activeStep_le env { st with emptyStream := false } c uid
          (cachedDigest env c) h1
        rw [hid] at hact
        have hle := le_trans hact (by split <;> omega :
          (if p (Ev.putPart ({ st with emptyStream := false } : UploaderState).partNumber uid
              (partHdr env c) c) then 1 else 0) ≤ 1)
        simp [prependEvs, countEv_append, countEv_digestEvs_zero env c h1]
        exact hle
    | none =>
        cases hf : env.findUploadId with
        | error e =>
            simp [hf, countEv_append, countEv_cons, countEv_nil,
              countEv_digestEvs_zero env c h1, h3]
        | ok o =>
          cases o with
          | none =>
              cases hn : env.initiateNewMultipartUpload with
              | error e =>
                  simp [hf, hn, countEv_append, countEv_cons, countEv_nil,
                    countEv_digestEvs_zero env c h1, h3, h4]
              | ok nid =>
                  simp [hf, hn, prependEvs, countEv_append, countEv_cons, countEv_nil,
                    countEv_digestEvs_zero env c h1, h3, h4]
                  exact countEv_transformCore_le_one env _ c h1 h2 h6
          | some uid =>
              cases hl : env.listParts uid with
              | error e =>
                  simp [hf, hl, countEv_append, countEv_cons, countEv_nil,
                    countEv_digestEvs_zero env c h1, h3, h5]
              | ok lp =>
                  simp [hf, hl, prependEvs, countEv_append, countEv_cons, countEv_nil,
                    countEv_digestEvs_zero env c h1, h3, h5]
                  exact countEv_transformCore_le_one env _ c h1 h2 h6

theorem runChunks_nil (env : Env) (st : UploaderState) :
    runChunks env st [] = ⟨st, [], none⟩ := rfl

theorem runChunks_cons (env : Env) (st : UploaderState) (c : List Nat)
    (cs : List (List Nat)) :
    runChunks env st (c :: cs) =
      match (transform env st c).err with
      | some e => ⟨(transform env st c).st, (transform env st c).evs, some e⟩
      | none =>
          ⟨(runChunks env (transform env st c).st cs).st,
            (transform env st c).evs ++ (runChunks env (transform env st c).st cs).evs,
            (runChunks env (transform env st c).st cs).err⟩ := by
  conv_lhs => unfold runChunks

theorem countEv_runChunks_zero {p : Ev → Bool} (env : Env) (cs : List (List Nat))
    (st : UploaderState)
    (h1 : ∀ c, p (Ev.digest c) = false) (h2 : ∀ h b, p (Ev.putWhole h b) = false)
    (h3 : p Ev.findUpl = false) (h4 : p Ev.initiateNew = false)
    (h5 : ∀ u, p (Ev.listPartsCall u) = false)
    (h6 : ∀ e v, p (Ev.cbResult e v) = false)
    (h7 : ∀ pn u h b, p (Ev.putPart pn u h b) = false) :
    countEv p (runChunks env st cs).evs = 0 := by
  induction cs generalizing st with
  | nil => rfl
  | cons c cs ih =>
      rw [runChunks_cons]
      have hz := countEv_transform_zero env st c (h1 c) h2 h3 h4 h5 h6 h7
      cases herr : (transform env st c).err with
      | some e => simpa using hz
      | none => simp [countEv_append, hz, ih]

theorem run_eq_err (env : Env) (chunks : List (List Nat)) (e : String)
    (h : (runChunks env initState chunks).err = some e) :
    run env chunks = (runChunks env initState chunks).evs ++ [Ev.cbErr e] := by
  simp only [run]
  rw [h]

theorem run_eq_ok (env : Env) (chunks : List (List Nat))
    (h : (runChunks env initState chunks).err = none) :
    run env chunks =
      (runChunks env initState chunks).evs ++
        flushStep env (runChunks env initState chunks).st := by
  simp only [run]
  rw [h]

theorem activeStep_id (env : Env) (st : UploaderState) (c : List Nat) (uid : String)
    (d : Option (List Nat)) : (activeStep env st c uid d).st.id = st.id := by
  unfold activeStep
  cases hop : st.oldParts with
  | none => rw [uploadPartStep_id]
  | some reg =>
      cases hfp : findPart reg st.partNumber with
      | some old =>
          cases d with
          | some d0 =>
              by_cases hx : hexOf d0 = old.etag <;>
                simp [hfp, hx, prependEvs, uploadPartStep_id]
          | none =>
              by_cases hx : hexOf (env.md5 c) = old.etag <;>
                simp [hfp, hx, prependEvs, uploadPartStep_id]
      | none =>
          cases d with
          | some d0 => simp [hfp, prependEvs, uploadPartStep_id]
          | none => simp [hfp, prependEvs, uploadPartStep_id]

theorem transformCore_id_mono (env : Env) (st : UploaderState) (c : List Nat)
    (uid : String) (hid : st.id = some uid) :
    (transformCore env st c).st.id = some uid := by
  unfold transformCore
  split
  · cases env.makeRequestPut (wholeHdr env c) c <;> simpa using hid
  · rw [hid]
    simp [prependEvs, activeStep_id, hid]

theorem transform_id_mono (env : Env) (st : UploaderState) (c : List Nat)
    (uid : String) (hid : st.id = some uid) :
    (transform env st c).st.id = some uid := by
  unfold transform
  split
  · cases env.makeRequestPut (wholeHdr env c) c <;> simpa using hid
  · rw [hid]
    simp [prependEvs, activeStep_id, hid]

theorem countEv_transform_id_some_zero {p : Ev → Bool} (env : Env) (st : UploaderState)
    (c : List Nat) (uid : String) (hid : st.id = some uid)
    (h1 : p (Ev.digest c) = false) (h2 : ∀ h b, p (Ev.putWhole h b) = false)
    (h6 : ∀ e v, p (Ev.cbResult e v) = false)
    (h7 : ∀ pn u h b, p (Ev.putPart pn u h b) = false) :
    countEv p (transform env st c).evs = 0 := by
  unfold transform
  split
  · cases env.makeRequestPut (wholeHdr env c) c <;>
      simp [countEv_append, countEv_cons, countEv_nil, countEv_digestEvs_zero env c h1, h2, h6]
  · rw [hid]
    have hact := countEv_activeStep_le env { st with emptyStream := false } c uid
      (cachedDigest env c) h1
    rw [hid] at hact
    simp [h7] at hact
    simp [prependEvs, countEv_append, countEv_digestEvs_zero env c h1, hact]

theorem transform_id_none_disj (env : Env) (st : UploaderState) (c : List Nat)
    (hid : st.id = none) :
    countEv isFindUpl (transform env st c).evs ≤ 1 ∧
    countEv isSetup (transform env st c).evs ≤ 1 ∧
    ((transform env st c).err = none →
      ((transform env st c).st.id = none ∧
        countEv isFindUpl (transform env st c).evs = 0 ∧
        countEv isSetup (transform env st c).evs = 0) ∨
      ((transform env st c).st.id.isSome = true ∧
        countEv isFindUpl (transform env st c).evs = 1 ∧
        countEv isSetup (transform env st c).evs = 1)) := by
  have hdF : isFindUpl (Ev.digest c) = false := rfl
  have hdS : isSetup (Ev.digest c) = false := rfl
  have hcoreF : ∀ st', countEv isFindUpl (transformCore env st' c).evs = 0 := fun st' =>
    countEv_transformCore_zero env st' c rfl (fun _ _ => rfl) (fun _ _ => rfl)
      (fun _ _ _ _ => rfl)
  have hcoreS : ∀ st', countEv isSetup (transformCore env st' c).evs = 0 := fun st' =>
    countEv_transformCore_zero env st' c rfl (fun _ _ => rfl) (fun _ _ => rfl)
      (fun _ _ _ _ => rfl)
  unfold transform
  split
  · cases hreq : env.makeRequestPut (wholeHdr env c) c with
    | error e =>
        refine ⟨?_, ?_, fun hn => ?_⟩
        · simp [countEv_append, countEv_cons, countEv_nil,
            countEv_digestEvs_zero env c hdF, isFindUpl]
        · simp [countEv_append, countEv_cons, countEv_nil,
            countEv_digestEvs_zero env c hdS, isSetup]
        · exact absurd hn (by simp)
    | ok r =>
        refine ⟨?_, ?_, fun _ => Or.inl ⟨?_, ?_, ?_⟩⟩
        · simp [countEv_append, countEv_cons, countEv_nil,
            countEv_digestEvs_zero env c hdF, isFindUpl]
        · simp [countEv_append, countEv_cons, countEv_nil,
            countEv_digestEvs_zero env c hdS, isSetup]
        · simpa using hid
        · simp [countEv_append, countEv_cons, countEv_nil,
            countEv_digestEvs_zero env c hdF, isFindUpl]
        · simp [countEv_append, countEv_cons, countEv_nil,
            countEv_digestEvs_zero env c hdS, isSetup]
  · rw [hid]
    cases hf : env.findUploadId with
    | error e =>
        refine ⟨?_, ?_, fun hn => ?_⟩
        · simp [countEv_append, countEv_cons, countEv_nil,
            countEv_digestEvs_zero env c hdF, isFindUpl]
        · simp [countEv_append, countEv_cons, countEv_nil,
            countEv_digestEvs_zero env c hdS, isSetup]
        · exact absurd hn (by simp)
    | ok o =>
      cases o with
      | none =>
          cases hn : env.initiateNewMultipartUpload with
          | error e =>
              refine ⟨?_, ?_, fun hz => ?_⟩
              · simp [hn, countEv_append, countEv_cons, countEv_nil,
                  countEv_digestEvs_zero env c hdF, isFindUpl, isSetup]
              · simp [hn, countEv_append, countEv_cons, countEv_nil,
                  countEv_digestEvs_zero env c hdS, isFindUpl, isSetup]
              · simp [hn] at hz
          | ok nid =>
              refine ⟨?_, ?_, fun _ => Or.inr ⟨?_, ?_, ?_⟩⟩
              · simp [hn, prependEvs, countEv_append, countEv_cons, countEv_nil,
                  countEv_digestEvs_zero env c hdF, isFindUpl, isSetup, hcoreF]
              · simp [hn, prependEvs, countEv_append, countEv_cons, countEv_nil,
                  countEv_digestEvs_zero env c hdS, isFindUpl, isSetup, hcoreS]
              · simp only [hn, prependEvs]
                rw [transformCore_id_mono env _ c nid rfl]
                rfl
              · simp [hn, prependEvs, countEv_append, countEv_cons, countEv_nil,
                  countEv_digestEvs_zero env c hdF, isFindUpl, isSetup, hcoreF]
              · simp [hn, prependEvs, countEv_append, countEv_cons, countEv_nil,
                  countEv_digestEvs_zero env c hdS, isFindUpl, isSetup, hcoreS]
      | some uid =>
          cases hl : env.listParts uid with
          | error e =>
              refine ⟨?_, ?_, fun hz => ?_⟩
              · simp [hl, countEv_append, countEv_cons, countEv_nil,
                  countEv_digestEvs_zero env c hdF, isFindUpl, isSetup]
              · simp [hl, countEv_append, countEv_cons, countEv_nil,
                  countEv_digestEvs_zero env c hdS, isFindUpl, isSetup]
              · simp [hl] at hz
          | ok lp =>
              refine ⟨?_, ?_, fun _ => Or.inr ⟨?_, ?_, ?_⟩⟩
              · simp [hl, prependEvs, countEv_append, countEv_cons, countEv_nil,
                  countEv_digestEvs_zero env c hdF, isFindUpl, isSetup, hcoreF]
              · simp [hl, prependEvs, countEv_append, countEv_cons, countEv_nil,
                  countEv_digestEvs_zero env c hdS, isFindUpl, isSetup, hcoreS]
              · simp only [hl, prependEvs]
                rw [transformCore_id_mono env _ c uid rfl]
                rfl
              · simp [hl, prependEvs, countEv_append, countEv_cons, countEv_nil,
                  countEv_digestEvs_zero env c hdF, isFindUpl, isSetup, hcoreF]
              · simp [hl, prependEvs, countEv_append, countEv_cons, countEv_nil,
                  countEv_digestEvs_zero env c hdS, isFindUpl, isSetup, hcoreS]

theorem runChunks_id_some (env : Env) (cs : List (List Nat)) (st : UploaderState)
    (uid : String) (hid : st.id = some uid) :
    (runChunks env st cs).st.id = some uid ∧
    countEv isFindUpl (runChunks env st cs).evs = 0 ∧
    countEv isSetup (runChunks env st cs).evs = 0 := by
  induction cs generalizing st with
  | nil => exact ⟨hid, rfl, rfl⟩
  | cons c cs ih =>
      rw [runChunks_cons]
      have hmono := transform_id_mono env st c uid hid
      have hF := countEv_transform_id_some_zero env st c uid hid rfl
        (fun _ _ => rfl) (fun _ _ => rfl) (fun _ _ _ _ => rfl) (p := isFindUpl)
      have hS := countEv_transform_id_some_zero env st c uid hid rfl
        (fun _ _ => rfl) (fun _ _ => rfl) (fun _ _ _ _ => rfl) (p := isSetup)
      cases herr : (transform env st c).err with
      | some e => exact ⟨hmono, by simpa using hF, by simpa using hS⟩
      | none =>
          have := ih (transform env st c).st hmono
          exact ⟨this.1, by simp [countEv_append, hF, this.2.1],
            by simp [countEv_append, hS, this.2.2]⟩

theorem runChunks_id_none (env : Env) (cs : List (List Nat)) (st : UploaderState)
    (hid : st.id = none) :
    countEv isFindUpl (runChunks env st cs).evs ≤ 1 ∧
    countEv isSetup (runChunks env st cs).evs ≤ 1 ∧
    ((runChunks env st cs).err = none →
      ((runChunks env st cs).st.id = none ∧
        countEv isFindUpl (runChunks env st cs).evs = 0 ∧
        countEv isSetup (runChunks env st cs).evs = 0) ∨
      ((runChunks env st cs).st.id.isSome = true ∧
        countEv isFindUpl (runChunks env st cs).evs = 1 ∧
        countEv isSetup (runChunks env st cs).evs = 1)) := by
  induction cs generalizing st with
  | nil => exact ⟨by simp [runChunks_nil, countEv_nil], by simp [runChunks_nil, countEv_nil],
      fun _ => Or.inl ⟨hid, rfl, rfl⟩⟩
  | cons c cs ih =>
      rw [runChunks_cons]
      have hdisj := transform_id_none_disj env st c hid
      cases herr : (transform env st c).err with
      | some e =>
          exact ⟨by simpa using hdisj.1, by simpa using hdisj.2.1, by simp⟩
      | none =>
          rcases hdisj.2.2 herr with ⟨hid2, hF2, hS2⟩ | ⟨hid2, hF2, hS2⟩
          · have := ih (transform env st c).st hid2
            refine ⟨?_, ?_, fun herr2 => ?_⟩
            · simp only [countEv_append, hF2]
              simpa using this.1
            · simp only [countEv_append, hS2]
              simpa using this.2.1
            · rcases this.2.2 (by simpa using herr2) with ⟨ha, hb, hc⟩ | ⟨ha, hb, hc⟩
              · exact Or.inl ⟨ha, by simp [countEv_append, hF2, hb],
                  by simp [countEv_append, hS2, hc]⟩
              · exact Or.inr ⟨ha, by simp [countEv_append, hF2, hb],
                  by simp [countEv_append, hS2, hc]⟩
          · rcases Option.isSome_iff_exists.mp hid2 with ⟨u, hu⟩
            have := runChunks_id_some env cs (transform env st c).st u hu
            refine ⟨?_, ?_, fun _ => Or.inr ⟨?_, ?_, ?_⟩⟩
            · simp [countEv_append, hF2, this.2.1]
            · simp [countEv_append, hS2, this.2.2]
            · simp [this.1, hu]
            · simp [countEv_append, hF2, this.2.1]
            · simp [countEv_append, hS2, this.2.2]

theorem countEv_flushStep_zero {p : Ev → Bool} (env : Env) (st : UploaderState)
    (h2 : ∀ h b, p (Ev.putWhole h b) = false)
    (h6 : ∀ e v, p (Ev.cbResult e v) = false)
    (h8 : ∀ u l, p (Ev.complete u l) = false)
    (h9 : ∀ e, p (Ev.cbErr e) = false)
    (h10 : ∀ e, p (Ev.cbEtag e) = false) :
    countEv p (flushStep env st) = 0 := by
  unfold flushStep
  split
  · cases hreq : env.makeRequestPut
        { contentLength := 0, contentMD5 := none, meta := env.metaData } [] <;>
      simp [hreq, countEv_cons, countEv_nil, h2, h6, h9]
  · cases st.id with
    | none => rfl
    | some uid =>
        cases hcm : env.completeMultipartUpload uid st.etags <;>
          simp [hcm, countEv_cons, countEv_nil, h8, h9, h10]

/-- C5: the session id, once assigned, is never reassigned; `findUploadId`
(the no-session gate) runs at most once per run; and a run that ends without
error holding a session performed exactly one of `initiateNewMultipartUpload`
(session creation) or `listParts` (adoption of an existing session). -/
theorem session_created_once :
    (∀ (env : Env) (st : UploaderState) (c : List Nat) (uid : String),
        st.id = some uid → (transform env st c).st.id = some uid)
    ∧ (∀ (env : Env) (chunks : List (List Nat)),
        countEv isFindUpl (run env chunks) ≤ 1)
    ∧ (∀ (env : Env) (chunks : List (List Nat)),
        (runChunks env initState chunks).err = none →
        (runChunks env initState chunks).st.id.isSome = true →
        countEv isSetup (runChunks env initState chunks).evs = 1) := by
  refine ⟨fun env st c uid hid => transform_id_mono env st c uid hid,
    fun env chunks => ?_, fun env chunks herr hsome => ?_⟩
  · have hrc := runChunks_id_none env chunks initState rfl
    cases herr : (runChunks env initState chunks).err with
    | some e =>
        rw [run_eq_err env chunks e herr]
        simpa [countEv_append, countEv_cons, countEv_nil, isFindUpl] using hrc.1
    | none =>
        rw [run_eq_ok env chunks herr]
        have hfl := countEv_flushStep_zero env (runChunks env initState chunks).st
          (fun _ _ => rfl) (fun _ _ => rfl) (fun _ _ => rfl) (fun _ => rfl) (fun _ => rfl)
          (p := isFindUpl)
        simp only [countEv_append, hfl]
        simpa using hrc.1
  · have hrc := runChunks_id_none env chunks initState rfl
    rcases hrc.2.2 herr with ⟨ha, _, _⟩ | ⟨_, _, hc⟩
    · rw [ha] at hsome
      simp at hsome
    · exact hc

theorem flushStep_cbErr (env : Env) (st : UploaderState) (e : String)
    (h : Ev.cbErr e ∈ flushStep env st) :
    ∃ x, flushStep env st = [x, Ev.cbErr e] ∧ isCbErr x = false := by
  cases hes : st.emptyStream with
  | true =>
      cases hreq : env.makeRequestPut
          { contentLength := 0, contentMD5 := none, meta := env.metaData } [] with
      | error e0 =>
          have hfl : flushStep env st =
              [Ev.putWhole { contentLength := 0, contentMD5 := none, meta := env.metaData } [],
                Ev.cbErr e0] := by
            simp [flushStep, hes, hreq]
          rw [hfl] at h
          simp at h
          subst h
          exact ⟨_, hfl, rfl⟩
      | ok r =>
          have hfl : flushStep env st =
              [Ev.putWhole { contentLength := 0, contentMD5 := none, meta := env.metaData } [],
                Ev.cbResult (env.sanitizeETag r.etag) r.versionId] := by
            simp [flushStep, hes, hreq]
          rw [hfl] at h
          simp at h
  | false =>
      cases hid : st.id with
      | none =>
          have hfl : flushStep env st = [] := by simp [flushStep, hes, hid]
          rw [hfl] at h
          simp at h
      | some uid =>
          cases hcm : env.completeMultipartUpload uid st.etags with
          | error e0 =>
              have hfl : flushStep env st = [Ev.complete uid st.etags, Ev.cbErr e0] := by
                simp [flushStep, hes, hid, hcm]
              rw [hfl] at h
              simp at h
              subst h
              exact ⟨_, hfl, rfl⟩
          | ok et =>
              have hfl : flushStep env st = [Ev.complete uid st.etags, Ev.cbEtag et] := by
                simp [flushStep, hes, hid, hcm]
              rw [hfl] at h
              simp at h

/-- C4: a collaborator failure during chunk intake halts the run — the trace
is exactly the events up to the failure followed by one error delivery, with
no `completeMultipartUpload` call ever issued — and any delivered error is
the final event of the trace, delivered exactly once, so no upload result,
part upload or completion follows it. -/
theorem error_halts_run :
    (∀ (env : Env) (chunks : List (List Nat)) (e : String),
        (runChunks env initState chunks).err = some e →
        run env chunks = (runChunks env initState chunks).evs ++ [Ev.cbErr e] ∧
        countEv isComplete (run env chunks) = 0)
    ∧ (∀ (env : Env) (chunks : List (List Nat)) (e : String),
        Ev.cbErr e ∈ run env chunks →
        ∃ pre, run env chunks = pre ++ [Ev.cbErr e] ∧ countEv isCbErr pre = 0) := by
  constructor
  · intro env chunks e herr
    refine ⟨run_eq_err env chunks e herr, ?_⟩
    rw [run_eq_err env chunks e herr]
    have hz := countEv_runChunks_zero env chunks initState (fun _ => rfl)
      (fun _ _ => rfl) rfl rfl (fun _ => rfl) (fun _ _ => rfl) (fun _ _ _ _ => rfl)
      (p := isComplete)
    simp [countEv_append, countEv_cons, countEv_nil, hz, isComplete]
  · intro env chunks e h
    have hz := countEv_runChunks_zero env chunks initState (fun _ => rfl)
      (fun _ _ => rfl) rfl rfl (fun _ => rfl) (fun _ _ => rfl) (fun _ _ _ _ => rfl)
      (p := isCbErr)
    cases herr : (runChunks env initState chunks).err with
    | some e0 =>
        rw [run_eq_err env chunks e0 herr] at h ⊢
        rcases List.mem_append.mp h with h1 | h1
        · exact absurd h1 (not_mem_of_countEv_zero hz rfl)
        · simp at h1
          subst h1
          exact ⟨_, rfl, hz⟩
    | none =>
        rw [run_eq_ok env chunks herr] at h ⊢
        rcases List.mem_append.mp h with h1 | h1
        · exact absurd h1 (not_mem_of_countEv_zero hz rfl)
        · rcases flushStep_cbErr env _ e h1 with ⟨x, hfl, hx⟩
          refine ⟨(runChunks env initState chunks).evs ++ [x], ?_, ?_⟩
          · rw [hfl]
            simp
          · simp [countEv_append, hz, countEv_singleton, hx]

/-! ### Part numbering invariant (claim C2) -/

/-- The accumulated `this.etags` always carry part numbers `1, 2, …,
partNumber - 1` in order. -/
def etagsInv (st : UploaderState) : Prop :=
  st.etags.map PartEtag.part = List.range' 1 (st.partNumber - 1) ∧ 1 ≤ st.partNumber

theorem range_snoc (n : Nat) (hn : 1 ≤ n) :
    List.range' 1 (n - 1) ++ [n] = List.range' 1 n := by
  have h2 : n - 1 + 1 = n := by omega
  have h3 : List.range' 1 (n - 1 + 1) = List.range' 1 (n - 1) ++ [1 + (n - 1)] := by
    simp [List.range'_concat]
  have h4 : 1 + (n - 1) = n := by omega
  rw [h4] at h3
  rw [h2] at h3
  exact h3.symm

theorem uploadPartStep_shape (env : Env) (st : UploaderState) (pn : Nat) (uid : String)
    (c : List Nat) (herr : (uploadPartStep env st pn uid c).err = none) :
    ∃ x, (uploadPartStep env st pn uid c).st.etags = st.etags ++ [⟨pn, x⟩] ∧
      (uploadPartStep env st pn uid c).st.partNumber = st.partNumber := by
  unfold uploadPartStep at herr ⊢
  cases hreq : env.makeRequestPart pn uid (partHdr env c) c with
  | error e =>
      rw [hreq] at herr
      simp at herr
  | ok r => exact ⟨normEtag r.etag, by simp [hreq], by simp [hreq]⟩

theorem activeStep_shape (env : Env) (st : UploaderState) (c : List Nat) (uid : String)
    (d : Option (List Nat)) (herr : (activeStep env st c uid d).err = none) :
    ∃ x, (activeStep env st c uid d).st.etags = st.etags ++ [⟨st.partNumber, x⟩] ∧
      (activeStep env st c uid d).st.partNumber = st.partNumber + 1 := by
  obtain ⟨es, pn, op, ets, oid⟩ := st
  cases op with
  | none =>
      simp only [activeStep] at herr ⊢
      rcases uploadPartStep_shape env ⟨es, pn + 1, none, ets, oid⟩ pn uid c herr with
        ⟨x, hx1, hx2⟩
      exact ⟨x, by simpa using hx1, by simpa using hx2⟩
  | some reg =>
      simp only [activeStep] at herr ⊢
      cases d with
      | some d0 =>
          cases hfp : findPart reg pn with
          | some old =>
              by_cases hx : hexOf d0 = old.etag
              · exact ⟨some old.etag, by simp [hfp, hx], by simp [hfp, hx]⟩
              · simp only [hfp, hx, if_false, prependEvs] at herr
                rcases uploadPartStep_shape env ⟨es, pn + 1, some reg, ets, oid⟩ pn uid c
                  herr with ⟨x, hx1, hx2⟩
                exact ⟨x, by simp [hfp, hx, prependEvs, hx1],
                  by simp [hfp, hx, prependEvs, hx2]⟩
          | none =>
              simp only [hfp, prependEvs] at herr
              rcases uploadPartStep_shape env ⟨es, pn + 1, some reg, ets, oid⟩ pn uid c
                herr with ⟨x, hx1, hx2⟩
              exact ⟨x, by simp [hfp, prependEvs, hx1], by simp [hfp, prependEvs, hx2]⟩
      | none =>
          cases hfp : findPart reg pn with
          | some old =>
              by_cases hx : hexOf (env.md5 c) = old.etag
              · exact ⟨some old.etag, by simp [hfp, hx], by simp [hfp, hx]⟩
              · simp only [hfp, hx, if_false, prependEvs] at herr
                rcases uploadPartStep_shape env ⟨es, pn + 1, some reg, ets, oid⟩ pn uid c
                  herr with ⟨x, hx1, hx2⟩
                exact ⟨x, by simp [hfp, hx, prependEvs, hx1],
                  by simp [hfp, hx, prependEvs, hx2]⟩
          | none =>
              simp only [hfp, prependEvs] at herr
              rcases uploadPartStep_shape env ⟨es, pn + 1, some reg, ets, oid⟩ pn uid c
                herr with ⟨x, hx1, hx2⟩
              exact ⟨x, by simp [hfp, prependEvs, hx1], by simp [hfp, prependEvs, hx2]⟩

theorem etagsInv_snoc (st : UploaderState) (st' : UploaderState) (x : Option String)
    (hinv : etagsInv st)
    (he : st'.etags = st.etags ++ [⟨st.partNumber, x⟩])
    (hp : st'.partNumber = st.partNumber + 1) :
    etagsInv st' := by
  rcases hinv with ⟨hmap, hge⟩
  constructor
  · rw [he, hp]
    simp only [List.map_append, List.map_cons, List.map_nil, hmap]
    have := range_snoc st.partNumber hge
    simpa using this
  · omega

theorem transformCore_inv (env : Env) (st : UploaderState) (c : List Nat)
    (hinv : etagsInv st) (herr : (transformCore env st c).err = none) :
    etagsInv (transformCore env st c).st := by
  unfold transformCore at herr ⊢
  split at herr
  next hss =>
    rw [if_pos hss]
    split at herr
    next e heq => simp at herr
    next r heq => exact ⟨hinv.1, hinv.2⟩
  next hss =>
    rw [if_neg hss]
    split at herr
    next uid heq =>
      rw [heq]
      simp only [prependEvs] at herr
      rw [heq] at herr
      rcases activeStep_shape env { st with emptyStream := false, id := some uid } c uid
        (cachedDigest env c) herr with ⟨x, hx1, hx2⟩
      exact etagsInv_snoc _ _ x ⟨hinv.1, hinv.2⟩ hx1 hx2
    next heq => simp at herr

theorem transform_inv (env : Env) (st : UploaderState) (c : List Nat)
    (hinv : etagsInv st) (herr : (transform env st c).err = none) :
    etagsInv (transform env st c).st := by
  unfold transform at herr ⊢
  split at herr
  next hss =>
    rw [if_pos hss]
    split at herr
    next e heq => simp at herr
    next r heq => exact ⟨hinv.1, hinv.2⟩
  next hss =>
    rw [if_neg hss]
    split at herr
    next uid heq =>
      try rw [heq]
      simp only [prependEvs] at herr
      rw [heq] at herr
      rcases activeStep_shape env { st with emptyStream := false, id := some uid } c uid
        (cachedDigest env c) herr with ⟨x, hx1, hx2⟩
      exact etagsInv_snoc _ _ x ⟨hinv.1, hinv.2⟩ hx1 hx2
    next heq =>
      try rw [heq]
      split at herr
      next e heq2 => simp at herr
      next heq2 =>
        try rw [heq2]
        split at herr
        next e heq3 => simp at herr
        next nid heq3 =>
          try rw [heq3]
          simp only [prependEvs] at herr
          exact transformCore_inv env _ c ⟨hinv.1, hinv.2⟩ herr
      next uid heq2 =>
        try rw [heq2]
        split at herr
        next e heq3 => simp at herr
        next lp heq3 =>
          try rw [heq3]
          simp only [prependEvs] at herr
          exact transformCore_inv env _ c ⟨hinv.1, hinv.2⟩ herr

theorem runChunks_inv (env : Env) (cs : List (List Nat)) (st : UploaderState)
    (hinv : etagsInv st) (herr : (runChunks env st cs).err = none) :
    etagsInv (runChunks env st cs).st := by
  induction cs generalizing st with
  | nil => exact hinv
  | cons c cs ih =>
      rw [runChunks_cons] at herr ⊢
      cases h1 : (transform env st c).err with
      | some e =>
          try rw [h1] at herr
          simp at herr
      | none =>
          try rw [h1] at herr
          try rw [h1]
          exact ih (transform env st c).st (transform_inv env st c hinv h1) herr

theorem flushStep_complete_mem (env : Env) (st : UploaderState) (uid : String)
    (l : List PartEtag) (h : Ev.complete uid l ∈ flushStep env st) :
    st.id = some uid ∧ l = st.etags := by
  cases hes : st.emptyStream with
  | true =>
      cases hreq : env.makeRequestPut
          { contentLength := 0, contentMD5 := none, meta := env.metaData } [] with
      | error e0 =>
          have hfl : flushStep env st =
              [Ev.putWhole { contentLength := 0, contentMD5 := none, meta := env.metaData } [],
                Ev.cbErr e0] := by
            simp [flushStep, hes, hreq]
          rw [hfl] at h
          simp at h
      | ok r =>
          have hfl : flushStep env st =
              [Ev.putWhole { contentLength := 0, contentMD5 := none, meta := env.metaData } [],
                Ev.cbResult (env.sanitizeETag r.etag) r.versionId] := by
            simp [flushStep, hes, hreq]
          rw [hfl] at h
          simp at h
  | false =>
      cases hid : st.id with
      | none =>
          have hfl : flushStep env st = [] := by simp [flushStep, hes, hid]
          rw [hfl] at h
          simp at h
      | some u =>
          cases hcm : env.completeMultipartUpload u st.etags with
          | error e0 =>
              have hfl : flushStep env st = [Ev.complete u st.etags, Ev.cbErr e0] := by
                simp [flushStep, hes, hid, hcm]
              rw [hfl] at h
              simp at h
              exact ⟨congrArg some h.1.symm, h.2⟩
          | ok et =>
              have hfl : flushStep env st = [Ev.complete u st.etags, Ev.cbEtag et] := by
                simp [flushStep, hes, hid, hcm]
              rw [hfl] at h
              simp at h
              exact ⟨congrArg some h.1.symm, h.2⟩

/-- C2: whenever a run reaches multipart completion,
`completeMultipartUpload` receives the accumulated parts carrying exactly the
part numbers `1, 2, …, n` in ascending order, with no gaps, duplicates or
reuse — each processed chunk was assigned the next number whether it was
uploaded or skipped via resume. -/
theorem completion_parts_ascending (env : Env) (chunks : List (List Nat))
    (uid : String) (l : List PartEtag)
    (h : Ev.complete uid l ∈ run env chunks) :
    l.map PartEtag.part = List.range' 1 l.length := by
  have hz := countEv_runChunks_zero env chunks initState (fun _ => rfl)
    (fun _ _ => rfl) rfl rfl (fun _ => rfl) (fun _ _ => rfl) (fun _ _ _ _ => rfl)
    (p := isComplete)
  cases herr : (runChunks env initState chunks).err with
  | some e0 =>
      rw [run_eq_err env chunks e0 herr] at h
      rcases List.mem_append.mp h with h1 | h1
      · exact absurd h1 (not_mem_of_countEv_zero hz rfl)
      · simp at h1
  | none =>
      rw [run_eq_ok env chunks herr] at h
      rcases List.mem_append.mp h with h1 | h1
      · exact absurd h1 (not_mem_of_countEv_zero hz rfl)
      · have hmem := flushStep_complete_mem env _ uid l h1
        have hinv := runChunks_inv env chunks initState
          (by constructor <;> simp [initState]) herr
        rcases hinv with ⟨hmap, hge⟩
        rw [hmem.2]
        rw [hmap]
        have hlen : (runChunks env initState chunks).st.etags.length =
            (runChunks env initState chunks).st.partNumber - 1 := by
          have := congrArg List.length hmap
          simpa using this
        rw [hlen]

/-- C1: with the multipart session active and a Part Registry present, a
chunk whose registry record at its assigned part number carries the same
digest is skipped — no part upload is issued and `{partNumber, etag: recorded
digest}` is appended — while a missing record or differing digest causes
exactly one part upload for that part number. -/
theorem resume_skip_or_upload (env : Env) (st : UploaderState) (c : List Nat)
    (uid : String) (reg : List PartItem)
    (hid : st.id = some uid) (hreg : st.oldParts = some reg)
    (hact : ¬(st.partNumber = 1 ∧ c.length < env.partSize)) :
    (∀ old, findPart reg st.partNumber = some old →
      (hexOf (env.md5 c) = old.etag →
        countEv isPutPart (transform env st c).evs = 0 ∧
        (transform env st c).st.etags = st.etags ++ [⟨st.partNumber, some old.etag⟩]) ∧
      (hexOf (env.md5 c) ≠ old.etag →
        countEv (isPutPartN st.partNumber) (transform env st c).evs = 1)) ∧
    (findPart reg st.partNumber = none →
      countEv (isPutPartN st.partNumber) (transform env st c).evs = 1) := by
  rw [transform_id_some env st c uid hid hact]
  cases henv : env.enableSHA256 with
  | false =>
      refine ⟨fun old hold => ⟨fun hmatch => ⟨?_, ?_⟩, fun hmiss => ?_⟩, fun hnone => ?_⟩
      · simp [prependEvs, activeStep, hreg, hold, hmatch, cachedDigest, digestEvs, henv,
          uploadPartStep_evs, countEv_append, countEv_cons, countEv_nil, isPutPart]
      · simp [prependEvs, activeStep, hreg, hold, hmatch, cachedDigest, digestEvs, henv]
      · simp [prependEvs, activeStep, hreg, hold, hmiss, cachedDigest, digestEvs, henv,
          uploadPartStep_evs, countEv_append, countEv_cons, countEv_nil, isPutPartN]
      · simp [prependEvs, activeStep, hreg, hnone, cachedDigest, digestEvs, henv,
          uploadPartStep_evs, countEv_append, countEv_cons, countEv_nil, isPutPartN]
  | true =>
      refine ⟨fun old hold => ⟨fun hmatch => ⟨?_, ?_⟩, fun hmiss => ?_⟩, fun hnone => ?_⟩
      · simp [prependEvs, activeStep, hreg, hold, hmatch, cachedDigest, digestEvs, henv,
          uploadPartStep_evs, countEv_append, countEv_cons, countEv_nil, isPutPart]
      · simp [prependEvs, activeStep, hreg, hold, hmatch, cachedDigest, digestEvs, henv]
      · simp [prependEvs, activeStep, hreg, hold, hmiss, cachedDigest, digestEvs, henv,
          uploadPartStep_evs, countEv_append, countEv_cons, countEv_nil, isPutPartN]
      · simp [prependEvs, activeStep, hreg, hnone, cachedDigest, digestEvs, henv,
          uploadPartStep_evs, countEv_append, countEv_cons, countEv_nil, isPutPartN]

theorem validChunks_small_first (ps : Nat) (c : List Nat) (rest : List (List Nat))
    (hv : validChunks ps (c :: rest) = true) (hlt : c.length < ps) : rest = [] := by
  cases rest with
  | nil => rfl
  | cons r rs =>
      simp only [validChunks, Bool.and_eq_true, decide_eq_true_eq] at hv
      omega

/-- C3: when the first chunk is strictly smaller than the part size (with a
valid chunking this makes it the only chunk), exactly one whole-object PUT is
issued, carrying the user metadata as headers; no multipart collaborator
operation occurs; and on success the terminal result is synthesized from that
single response. -/
theorem single_shot_first_chunk (env : Env) (c : List Nat) (rest : List (List Nat))
    (hv : validChunks env.partSize (c :: rest) = true)
    (hlt : c.length < env.partSize) :
    countEv isPutWhole (run env (c :: rest)) = 1 ∧
    countEv isMulti (run env (c :: rest)) = 0 ∧
    (∀ h b, Ev.putWhole h b ∈ run env (c :: rest) → h = wholeHdr env c ∧ b = c) ∧
    (wholeHdr env c).meta = env.metaData ∧
    (∀ r, env.makeRequestPut (wholeHdr env c) c = .ok r →
      Ev.cbResult (env.sanitizeETag r.etag) r.versionId ∈ run env (c :: rest)) := by
  have hrest : rest = [] := validChunks_small_first env.partSize c rest hv hlt
  subst hrest
  have hss : initState.partNumber = 1 ∧ c.length < env.partSize := ⟨rfl, hlt⟩
  have htr := transform_singleShot env initState c hss
  cases hreq : env.makeRequestPut (wholeHdr env c) c with
  | error e =>
      have hstep : transform env initState c =
          ⟨{ initState with emptyStream := false },
            digestEvs env c ++ [Ev.putWhole (wholeHdr env c) c], some e⟩ := by
        rw [htr, hreq]
      have hrun : run env [c] =
          digestEvs env c ++ [Ev.putWhole (wholeHdr env c) c, Ev.cbErr e] := by
        have hfe : ({ initState with emptyStream := false } : UploaderState).emptyStream =
            false := rfl
        have hfi : ({ initState with emptyStream := false } : UploaderState).id = none := rfl
        simp [run, runChunks_cons, runChunks_nil, hstep, flushStep, hfe, hfi]
      cases henv : env.enableSHA256 with
      | false =>
          refine ⟨?_, ?_, fun h b hmem => ?_, rfl, fun r hr => ?_⟩
          · simp [hrun, digestEvs, henv, countEv_cons, countEv_nil, countEv_append,
              isPutWhole]
          · simp [hrun, digestEvs, henv, countEv_cons, countEv_nil, countEv_append,
              isMulti]
          · rw [hrun] at hmem
            simp [digestEvs, henv] at hmem
            exact hmem
          · exact absurd hr (by simp)
      | true =>
          refine ⟨?_, ?_, fun h b hmem => ?_, rfl, fun r hr => ?_⟩
          · simp [hrun, digestEvs, henv, countEv_cons, countEv_nil, countEv_append,
              isPutWhole]
          · simp [hrun, digestEvs, henv, countEv_cons, countEv_nil, countEv_append,
              isMulti]
          · rw [hrun] at hmem
            simp [digestEvs, henv] at hmem
            exact hmem
          · exact absurd hr (by simp)
  | ok r =>
      have hstep : transform env initState c =
          ⟨{ initState with emptyStream := false },
            digestEvs env c ++ [Ev.putWhole (wholeHdr env c) c,
              Ev.cbResult (env.sanitizeETag r.etag) r.versionId], none⟩ := by
        rw [htr, hreq]
      have hrun : run env [c] =
          digestEvs env c ++ [Ev.putWhole (wholeHdr env c) c,
            Ev.cbResult (env.sanitizeETag r.etag) r.versionId] := by
        have hfe : ({ initState with emptyStream := false } : UploaderState).emptyStream =
            false := rfl
        have hfi : ({ initState with emptyStream := false } : UploaderState).id = none := rfl
        simp [run, runChunks_cons, runChunks_nil, hstep, flushStep, hfe, hfi]
      cases henv : env.enableSHA256 with
      | false =>
          refine ⟨?_, ?_, fun h b hmem => ?_, rfl, fun r0 hr => ?_⟩
          · simp [hrun, digestEvs, henv, countEv_cons, countEv_nil, countEv_append,
              isPutWhole]
          · simp [hrun, digestEvs, henv, countEv_cons, countEv_nil, countEv_append,
              isMulti]
          · rw [hrun] at hmem
            simp [digestEvs, henv] at hmem
            exact hmem
          · cases hr
            simp [hrun]
      | true =>
          refine ⟨?_, ?_, fun h b hmem => ?_, rfl, fun r0 hr => ?_⟩
          · simp [hrun, digestEvs, henv, countEv_cons, countEv_nil, countEv_append,
              isPutWhole]
          · simp [hrun, digestEvs, henv, countEv_cons, countEv_nil, countEv_append,
              isMulti]
          · rw [hrun] at hmem
            simp [digestEvs, henv] at hmem
            exact hmem
          · cases hr
            simp [hrun]

/-- C9: a zero-length first chunk marks the stream non-empty and takes the
single-shot chunk path (its length 0 is below any positive part size): one
whole-object PUT with empty body and metadata headers is issued during chunk
processing, no multipart operation occurs, and the empty-stream finalize path
cannot run afterwards (`emptyStream` is already false, and the run carries
exactly one whole-object PUT in total). -/
theorem zero_length_first_chunk (env : Env) (hps : 0 < env.partSize) :
    countEv isPutWhole (run env [[]]) = 1 ∧
    countEv isMulti (run env [[]]) = 0 ∧
    (∀ h b, Ev.putWhole h b ∈ run env [[]] →
      b = [] ∧ h = wholeHdr env [] ∧ h.contentLength = 0 ∧ h.meta = env.metaData) ∧
    (runChunks env initState [[]]).st.emptyStream = false := by
  have hss : initState.partNumber = 1 ∧ ([] : List Nat).length < env.partSize :=
    ⟨rfl, by simpa using hps⟩
  have htr := transform_singleShot env initState [] hss
  cases hreq : env.makeRequestPut (wholeHdr env []) [] with
  | error e =>
      have hstep : transform env initState [] =
          ⟨{ initState with emptyStream := false },
            digestEvs env [] ++ [Ev.putWhole (wholeHdr env []) []], some e⟩ := by
        rw [htr, hreq]
      have hrun : run env [[]] =
          digestEvs env [] ++ [Ev.putWhole (wholeHdr env []) [], Ev.cbErr e] := by
        have hfe : ({ initState with emptyStream := false } : UploaderState).emptyStream =
            false := rfl
        have hfi : ({ initState with emptyStream := false } : UploaderState).id = none := rfl
        simp [run, runChunks_cons, runChunks_nil, hstep, flushStep, hfe, hfi]
      cases henv : env.enableSHA256 with
      | false =>
          refine ⟨?_, ?_, fun h b hmem => ?_, ?_⟩
          · simp [hrun, digestEvs, henv, countEv_cons, countEv_nil, countEv_append,
              isPutWhole]
          · simp [hrun, digestEvs, henv, countEv_cons, countEv_nil, countEv_append,
              isMulti]
          · rw [hrun] at hmem
            simp [digestEvs, henv] at hmem
            simp [hmem, wholeHdr, partHdr]
          · simp [runChunks_cons, runChunks_nil, hstep]
      | true =>
          refine ⟨?_, ?_, fun h b hmem => ?_, ?_⟩
          · simp [hrun, digestEvs, henv, countEv_cons, countEv_nil, countEv_append,
              isPutWhole]
          · simp [hrun, digestEvs, henv, countEv_cons, countEv_nil, countEv_append,
              isMulti]
          · rw [hrun] at hmem
            simp [digestEvs, henv] at hmem
            simp [hmem, wholeHdr, partHdr]
          · simp [runChunks_cons, runChunks_nil, hstep]
  | ok r =>
      have hstep : transform env initState [] =
          ⟨{ initState with emptyStream := false },
            digestEvs env [] ++ [Ev.putWhole (wholeHdr env []) [],
              Ev.cbResult (env.sanitizeETag r.etag) r.versionId], none⟩ := by
        rw [htr, hreq]
      have hrun : run env [[]] =
          digestEvs env [] ++ [Ev.putWhole (wholeHdr env []) [],
            Ev.cbResult (env.sanitizeETag r.etag) r.versionId] := by
        have hfe : ({ initState with emptyStream := false } : UploaderState).emptyStream =
            false := rfl
        have hfi : ({ initState with emptyStream := false } : UploaderState).id = none := rfl
        simp [run, runChunks_cons, runChunks_nil, hstep, flushStep, hfe, hfi]
      cases henv : env.enableSHA256 with
      | false =>
          refine ⟨?_, ?_, fun h b hmem => ?_, ?_⟩
          · simp [hrun, digestEvs, henv, countEv_cons, countEv_nil, countEv_append,
              isPutWhole]
          · simp [hrun, digestEvs, henv, countEv_cons, countEv_nil, countEv_append,
              isMulti]
          · rw [hrun] at hmem
            simp [digestEvs, henv] at hmem
            simp [hmem, wholeHdr, partHdr]
          · simp [runChunks_cons, runChunks_nil, hstep]
      | true =>
          refine ⟨?_, ?_, fun h b hmem => ?_, ?_⟩
          · simp [hrun, digestEvs, henv, countEv_cons, countEv_nil, countEv_append,
              isPutWhole]
          · simp [hrun, digestEvs, henv, countEv_cons, countEv_nil, countEv_append,
              isMulti]
          · rw [hrun] at hmem
            simp [digestEvs, henv] at hmem
            simp [hmem, wholeHdr, partHdr]
          · simp [runChunks_cons, runChunks_nil, hstep]

/-! ### Etag normalization (claim C8) and digest usage (claim C10) -/

/-- Environment witnessing concrete multipart runs: one part of one byte,
a fresh session `"U"`, and a part-upload response whose etag has a leading
quote only. -/
def env8 : Env :=
  { enableSHA256 := true
    partSize := 1
    metaData := []
    md5 := fun _ => []
    findUploadId := .ok none
    initiateNewMultipartUpload := .ok "U"
    listParts := fun _ => .ok none
    makeRequestPut := fun _ _ => .error "unused"
    makeRequestPart := fun _ _ _ _ => .ok ⟨some "\"abc", none⟩
    completeMultipartUpload := fun _ _ => .ok "E"
    sanitizeETag := fun _ => "" }

/-- Counterexample to C8 as stated: the part-upload response etag `"abc`
carries a leading double quote with no matching trailing quote, yet the code
appends `abc` — a quote was removed from one side only, whereas the
spec-worded symmetric normalization `stripSymmetricQuotes` would leave
`"abc` unchanged. -/
theorem etag_strip_counterexample :
    (runChunks env8 initState [[0]]).st.etags =
      [{ part := 1, etag := some "abc" }] ∧
    stripSymmetricQuotes "\"abc" = "\"abc" := by
  constructor
  · decide
  · decide

/-- C8 amended: the identifier appended to the aggregator is the returned
etag with one leading double quote (if present) and one trailing double
quote (if present) each removed independently; an absent or empty etag is
appended unchanged. -/
theorem etag_normalization_per_side (env : Env) (st : UploaderState) (c : List Nat)
    (uid : String) (r : Response)
    (hid : st.id = some uid) (hop : st.oldParts = none)
    (hact : ¬(st.partNumber = 1 ∧ c.length < env.partSize))
    (hok : env.makeRequestPart st.partNumber uid (partHdr env c) c = .ok r) :
    (transform env st c).st.etags =
      st.etags ++ [⟨st.partNumber, normEtag r.etag⟩] ∧
    normEtag none = none ∧ normEtag (some "") = some "" ∧
    (∀ s, s ≠ "" →
      normEtag (some s) = some (stripTrailingQuote (stripLeadingQuote s))) := by
  refine ⟨?_, rfl, rfl, fun s hs => by simp [normEtag, hs]⟩
  rw [transform_id_some env st c uid hid hact]
  simp [prependEvs, activeStep, hop, uploadPartStep, hok]

theorem countEv_digest_activeStep (env : Env) (st : UploaderState) (c : List Nat)
    (uid : String) (d : Option (List Nat)) :
    countEv isDigest (activeStep env st c uid d).evs =
      match d, st.oldParts with
      | some _, _ => 0
      | none, none => 0
      | none, some _ => 1 := by
  obtain ⟨es, pn, op, ets, oid⟩ := st
  cases d with
  | some d0 =>
      cases op with
      | none => simp [activeStep, uploadPartStep_evs, countEv_cons, countEv_nil, isDigest]
      | some reg =>
          cases hfp : findPart reg pn with
          | some old =>
              by_cases hx : hexOf d0 = old.etag <;>
                simp [activeStep, hfp, hx, prependEvs, uploadPartStep_evs,
                  countEv_append, countEv_cons, countEv_nil, isDigest]
          | none =>
              simp [activeStep, hfp, prependEvs, uploadPartStep_evs,
                countEv_append, countEv_cons, countEv_nil, isDigest]
  | none =>
      cases op with
      | none => simp [activeStep, uploadPartStep_evs, countEv_cons, countEv_nil, isDigest]
      | some reg =>
          cases hfp : findPart reg pn with
          | some old =>
              by_cases hx : hexOf (env.md5 c) = old.etag <;>
                simp [activeStep, hfp, hx, prependEvs, uploadPartStep_evs,
                  countEv_append, countEv_cons, countEv_nil, isDigest]
          | none =>
              simp [activeStep, hfp, prependEvs, uploadPartStep_evs,
                countEv_append, countEv_cons, countEv_nil, isDigest]

theorem activeStep_putPart_hdr (env : Env) (st : UploaderState) (c : List Nat)
    (uid : String) (d : Option (List Nat)) (pn : Nat) (u : String) (h : Hdr)
    (b : List Nat) (hmem : Ev.putPart pn u h b ∈ (activeStep env st c uid d).evs) :
    h = partHdr env c := by
  obtain ⟨es, pn0, op, ets, oid⟩ := st
  cases op with
  | none =>
      rw [show (activeStep env ⟨es, pn0, none, ets, oid⟩ c uid d).evs = _ from
        uploadPartStep_evs env _ _ _ _] at hmem
      cases hmem with
      | head => rfl
      | tail _ hmem2 => cases hmem2
  | some reg =>
      have hup : ∀ st1, Ev.putPart pn u h b ∈ (uploadPartStep env st1 pn0 uid c).evs →
          h = partHdr env c := by
        intro st1 hm
        rw [uploadPartStep_evs] at hm
        cases hm with
        | head => rfl
        | tail _ hm2 => cases hm2
      cases d with
      | some d0 =>
          cases hfp : findPart reg pn0 with
          | some old =>
              by_cases hx : hexOf d0 = old.etag
              · simp [activeStep, hfp, hx] at hmem
              · simp only [activeStep, hfp, hx, if_false, prependEvs,
                  List.nil_append] at hmem
                exact hup _ hmem
          | none =>
              simp only [activeStep, hfp, prependEvs, List.nil_append] at hmem
              exact hup _ hmem
      | none =>
          cases hfp : findPart reg pn0 with
          | some old =>
              by_cases hx : hexOf (env.md5 c) = old.etag
              · simp [activeStep, hfp, hx] at hmem
              · simp only [activeStep, hfp, hx, if_false, prependEvs,
                  List.singleton_append] at hmem
                cases hmem with
                | tail _ hmem2 => exact hup _ hmem2
          | none =>
              simp only [activeStep, hfp, prependEvs, List.singleton_append] at hmem
              cases hmem with
              | tail _ hmem2 => exact hup _ hmem2

/-- Same environment as `env8` but with SHA256 disabled, so the Content-MD5
header block computes the digest. -/
def env10 : Env :=
  { env8 with enableSHA256 := false }

/-- Counterexample to C10 as stated: with SHA256 disabled, the first (and
only) multipart chunk `[0]` has its MD5 digest computed twice — once in the
invocation that gets buffered while the session is set up, and again when
the buffered chunk is re-processed after `'ready'`. -/
theorem digest_computed_twice :
    countEv (fun ev => ev == Ev.digest [0]) (run env10 [[0]]) = 2 := by
  decide

/-- C10 amended: within a single multipart-active `_transform` invocation
the MD5 digest is computed at most once (not at all when SHA256 is enabled
and no registry exists); when SHA256 is disabled its base64 encoding is the
Content-MD5 header of the part upload; and the resume comparison uses the
hex encoding of that same digest, computed lazily when the header did not
require it.  (The first multipart chunk is processed by two invocations —
before and after session setup — so across the whole run its digest can be
computed twice.) -/
theorem digest_per_invocation (env : Env) (st : UploaderState) (c : List Nat)
    (uid : String)
    (hid : st.id = some uid) (hact : ¬(st.partNumber = 1 ∧ c.length < env.partSize)) :
    countEv isDigest (transform env st c).evs ≤ 1 ∧
    (env.enableSHA256 = true → st.oldParts = none →
      countEv isDigest (transform env st c).evs = 0) ∧
    (env.enableSHA256 = true → ∀ reg, st.oldParts = some reg →
      countEv isDigest (transform env st c).evs = 1) ∧
    (∀ pn u h b, Ev.putPart pn u h b ∈ (transform env st c).evs → h = partHdr env c) ∧
    (env.enableSHA256 = false → (partHdr env c).contentMD5 = some (b64Of (env.md5 c))) ∧
    (env.enableSHA256 = true → (partHdr env c).contentMD5 = none) ∧
    (∀ reg old, st.oldParts = some reg → findPart reg st.partNumber = some old →
      (countEv isPutPart (transform env st c).evs = 0 ↔
        hexOf (env.md5 c) = old.etag)) := by
  rw [transform_id_some env st c uid hid hact]
  have hda := countEv_digest_activeStep env { st with emptyStream := false } c uid
    (cachedDigest env c)
  refine ⟨?_, fun henv hop => ?_, fun henv reg hop => ?_, fun pn u h b hmem => ?_,
    fun henv => ?_, fun henv => ?_, fun reg old hop hold => ?_⟩
  · cases henv : env.enableSHA256 with
    | false =>
        simp [cachedDigest, henv] at hda
        cases hop : st.oldParts with
        | none =>
            try simp only [hop] at hda
            simp [prependEvs, countEv_append, digestEvs, henv, countEv_cons,
              countEv_nil, isDigest, cachedDigest, hda]
        | some reg =>
            try simp only [hop] at hda
            simp [prependEvs, countEv_append, digestEvs, henv, countEv_cons,
              countEv_nil, isDigest, cachedDigest, hda]
    | true =>
        simp [cachedDigest, henv] at hda
        cases hop : st.oldParts with
        | none =>
            try simp only [hop] at hda
            simp [prependEvs, countEv_append, digestEvs, henv, countEv_nil,
              cachedDigest, hda]
        | some reg =>
            try simp only [hop] at hda
            simp [prependEvs, countEv_append, digestEvs, henv, countEv_nil,
              cachedDigest, hda]
  · simp [cachedDigest, henv, hop] at hda
    simp [prependEvs, countEv_append, digestEvs, henv, countEv_nil, cachedDigest,
      hop, hda]
  · simp [cachedDigest, henv, hop] at hda
    simp [prependEvs, countEv_append, digestEvs, henv, countEv_nil, cachedDigest,
      hop, hda]
  · simp only [prependEvs] at hmem
    rcases List.mem_append.mp hmem with h1 | h1
    · unfold digestEvs at h1
      split at h1 <;> simp at h1
    · exact activeStep_putPart_hdr env _ c uid _ pn u h b h1
  · simp [partHdr, henv]
  · simp [partHdr, henv]
  · have hskip := countEv_activeStep_le env { st with emptyStream := false } c uid
      (cachedDigest env c) (p := isPutPart) rfl
    constructor
    · intro hz
      by_contra hne
      have : countEv isPutPart (prependEvs (digestEvs env c)
          (activeStep env { st with emptyStream := false } c uid
            (cachedDigest env c))).evs = 1 := by
        cases henv : env.enableSHA256 with
        | false =>
            simp [prependEvs, countEv_append, digestEvs, henv, countEv_cons,
              countEv_nil, isDigest, activeStep, hop, hold, cachedDigest, hne,
              uploadPartStep_evs, countEv_singleton, isPutPart]
        | true =>
            simp [prependEvs, countEv_append, digestEvs, henv, countEv_cons,
              countEv_nil, isDigest, activeStep, hop, hold, cachedDigest, hne,
              uploadPartStep_evs, countEv_singleton, isPutPart]
      omega
    · intro hx
      cases henv : env.enableSHA256 with
      | false =>
          simp [prependEvs, countEv_append, digestEvs, henv, countEv_cons,
            countEv_nil, activeStep, hop, hold, cachedDigest, hx,
            uploadPartStep_evs, isPutPart]
      | true =>
          simp [prependEvs, countEv_append, digestEvs, henv, countEv_cons,
            countEv_nil, activeStep, hop, hold, cachedDigest, hx,
            uploadPartStep_evs, isPutPart]

/-! ### Concrete witnesses -/

/-- A fully successful environment: one-byte part size, fresh session `"U"`,
quoted response etags. -/
def envW : Env :=
  { enableSHA256 := true
    partSize := 1
    metaData := [("k", "v")]
    md5 := fun _ => []
    findUploadId := .ok none
    initiateNewMultipartUpload := .ok "U"
    listParts := fun _ => .ok none
    makeRequestPut := fun _ _ => .ok ⟨some "\"w\"", some "V"⟩
    makeRequestPart := fun _ _ _ _ => .ok ⟨some "\"e\"", none⟩
    completeMultipartUpload := fun _ _ => .ok "E"
    sanitizeETag := fun o => o.getD "" }

/-- `envW` with a two-byte part size, so a one-byte chunk is single-shot. -/
def envW2 : Env :=
  { envW with partSize := 2 }

/-- `envW` with a failing part upload. -/
def envErr : Env :=
  { envW with makeRequestPart := fun _ _ _ _ => .error "boom" }

/-- A multipart-active state: session `"U"`, part number 1, a registry whose
record for part 1 carries the hex digest of the empty `md5` model. -/
def stW : UploaderState :=
  ⟨false, 1, some [⟨1, ""⟩], [], some "U"⟩

/-- A multipart-active state with no registry. -/
def st8 : UploaderState :=
  ⟨false, 1, none, [], some "U"⟩

theorem resume_skip_or_upload_witness :
    countEv isPutPart (transform envW stW [7]).evs = 0 ∧
    (transform envW stW [7]).st.etags = stW.etags ++ [⟨stW.partNumber, some ""⟩] :=
  ((resume_skip_or_upload envW stW [7] "U" [⟨1, ""⟩] rfl rfl (by decide)).1
    ⟨1, ""⟩ (by decide)).1 (by decide)

theorem completion_parts_ascending_witness :
    ([⟨1, some "e"⟩, ⟨2, some "e"⟩] : List PartEtag).map PartEtag.part =
      List.range' 1 ([⟨1, some "e"⟩, ⟨2, some "e"⟩] : List PartEtag).length :=
  completion_parts_ascending envW [[0], [1]] "U" [⟨1, some "e"⟩, ⟨2, some "e"⟩]
    (by decide)

theorem single_shot_first_chunk_witness :
    countEv isPutWhole (run envW2 [[0]]) = 1 :=
  (single_shot_first_chunk envW2 [0] [] (by decide) (by decide)).1

theorem error_halts_run_witness :
    run envErr [[0]] = (runChunks envErr initState [[0]]).evs ++ [Ev.cbErr "boom"] ∧
    countEv isComplete (run envErr [[0]]) = 0 :=
  error_halts_run.1 envErr [[0]] "boom" (by decide)

theorem session_created_once_witness :
    (transform envW stW [7]).st.id = some "U" :=
  session_created_once.1 envW stW [7] "U" rfl

theorem emptyInput_single_put_witness :
    Ev.cbResult "\"w\"" (some "V") ∈ run envW [] :=
  (emptyInput_single_put envW).2.2.2 ⟨some "\"w\"", some "V"⟩ rfl

theorem etag_normalization_per_side_witness :
    (transform env8 st8 [0]).st.etags =
      st8.etags ++ [⟨st8.partNumber, normEtag (some "\"abc")⟩] ∧
    normEtag none = none ∧ normEtag (some "") = some "" ∧
    (∀ s, s ≠ "" →
      normEtag (some s) = some (stripTrailingQuote (stripLeadingQuote s))) :=
  etag_normalization_per_side env8 st8 [0] "U" ⟨some "\"abc", none⟩ rfl rfl
    (by decide) rfl

theorem zero_length_first_chunk_witness :
    countEv isPutWhole (run envW [[]]) = 1 :=
  (zero_length_first_chunk envW (by decide)).1

theorem digest_per_invocation_witness :
    countEv isDigest (transform envW stW [7]).evs ≤ 1 :=
  (digest_per_invocation envW stW [7] "U" rfl (by decide)).1
